import Mathlib

/-!
# Verification of the resolution pipeline of the YouTube streaming API server

Shallow embedding of the core of `src/main.py` (class `YouTubeDownloader`:
`get_ydl_options`, `get_audio_stream`, `_try_audio_method`, the video branch of
`get_stream_info`), of the cache-population guards in `get_stream_info` and
`stream_audio`, and — modelled from the spec, since the `utils` module
(`rate_limiter`, `cache`) is not part of the sources — of the sliding-window
admission controller and of the TTL/FIFO result cache.

The external resolver (`yt_dlp.YoutubeDL.extract_info`) is opaque: it is
modelled as an oracle mapping each extraction method to an outcome
(exception, no info, or a metadata document carrying candidate formats).
Python's `dict.get(k, d)` on possibly-absent fields is modelled with
`Option` and `Option.getD`; `list.sort(key=..., reverse=True)` is a stable
descending sort, modelled with `List.insertionSort` (likewise stable) on the
reversed key order; Python tuple comparison is lexicographic.
-/

/-- A candidate media format, as found in the `formats` list of the metadata
document returned by the external resolver.  Every field other than `url`
is read by the source with `fmt.get(...)`, hence optional. -/
structure Format where
  url : String
  ext : Option String := none
  abr : Option Nat := none
  tbr : Option Nat := none
  asr : Option Nat := none
  filesize : Option Nat := none
  vcodec : Option String := none
  acodec : Option String := none
  protocol : Option String := none
  format_note : Option String := none
  height : Option Nat := none
  width : Option Nat := none
  fps : Option Nat := none
deriving Repr, DecidableEq

/-- The metadata document (`info`) returned by a successful call to the
external resolver. -/
structure Info where
  title : Option String := none
  duration : Option Nat := none
  formats : List Format := []
deriving Repr, DecidableEq

/-- Outcome of one call to the external resolver for one method:
an exception (caught by `_try_audio_method`'s `try`), a falsy `info`
(`if not info:`), or a metadata document. -/
inductive ResolverOutcome where
  | raise (msg : String)
  | noInfo
  | ok (info : Info)
deriving Repr, DecidableEq

/-- The `format` sub-dictionary of a successful audio resolution result
(`_try_audio_method`, lines 273–282 of `src/main.py`). -/
structure AudioFormatOut where
  ext : String
  abr : Nat
  asr : Nat
  vcodec : String
  acodec : String
  filesize : Option Nat
  protocol : String
  format_note : String
deriving Repr, DecidableEq

/-- A resolution result dictionary as produced by `_try_audio_method`:
either `{'status': 'error', 'message': ...}` or the success dictionary. -/
structure AudioResult where
  status : String
  message : Option String := none
  video_id : Option String := none
  title : Option String := none
  duration : Option Nat := none
  stream_url : Option String := none
  type : Option String := none
  fmt : Option AudioFormatOut := none
  method_used : Option String := none
deriving Repr, DecidableEq

/-- Lexicographic order on numeric key triples, the order Python uses to
compare the sort-key tuples built in `_try_audio_method` (abr-or-tbr, asr,
filesize) and in `get_stream_info` (height, width, fps). -/
def lexLE (a b : Nat × Nat × Nat) : Prop :=
  a.1 < b.1 ∨ (a.1 = b.1 ∧ (a.2.1 < b.2.1 ∨ (a.2.1 = b.2.1 ∧ a.2.2 ≤ b.2.2)))

instance : DecidableRel lexLE := fun a b => by
  unfold lexLE; exact inferInstance

/-- Sort key of `_try_audio_method`:
`(x.get('abr', 0) or x.get('tbr', 0) or 0, x.get('asr', 0) or 0, x.get('filesize', 0) or 0)`.
Python's `or` falls through on `0`/`None`, so an absent or zero `abr` falls
back to `tbr`, and absent fields rank as zero. -/
def audioKey (f : Format) : Nat × Nat × Nat :=
  (if f.abr.getD 0 ≠ 0 then f.abr.getD 0 else f.tbr.getD 0,
   f.asr.getD 0, f.filesize.getD 0)

/-- Sort key of the video branch of `get_stream_info`:
`(x.get('height', 0) or 0, x.get('width', 0) or 0, x.get('fps', 0) or 0)`. -/
def videoKey (f : Format) : Nat × Nat × Nat :=
  (f.height.getD 0, f.width.getD 0, f.fps.getD 0)

/-- `a` may precede `b` in the descending audio sort (`reverse=True`). -/
def audioGE (a b : Format) : Prop := lexLE (audioKey b) (audioKey a)

instance : DecidableRel audioGE := fun a b => by
  unfold audioGE; exact inferInstance

/-- `a` may precede `b` in the descending video sort (`reverse=True`). -/
def videoGE (a b : Format) : Prop := lexLE (videoKey b) (videoKey a)

instance : DecidableRel videoGE := fun a b => by
  unfold videoGE; exact inferInstance

/-- Candidate eligibility of `_try_audio_method` (lines 242–249 of
`src/main.py`), transcribed branch for branch:
`if method_name == "mixed_format_method" and fmt.get('acodec') != 'none': append`
`elif fmt.get('acodec') != 'none' and (fmt.get('vcodec') == 'none' or method_name != "mixed_format_method"): append`. -/
def suitableFilter (method : String) (f : Format) : Bool :=
  if method = "mixed_format_method" ∧ f.acodec ≠ some "none" then true
  else decide (f.acodec ≠ some "none" ∧
    (f.vcodec = some "none" ∨ method ≠ "mixed_format_method"))

/-- The format selection performed by `_try_audio_method` on a candidate
list: filter by `suitableFilter`, stable-sort descending by `audioKey`,
take the first element (`suitable_formats[0]`); `none` exactly when no
candidate survives the filter (`if not suitable_formats`). -/
def selectAudioFormat (method : String) (formats : List Format) : Option Format :=
  ((formats.filter (suitableFilter method)).insertionSort audioGE).head?

/-- The format selection performed by the video branch of `get_stream_info`
(lines 332–344): keep formats with `vcodec != 'none'`, stable-sort
descending by `videoKey`, take the first. -/
def selectVideoFormat (formats : List Format) : Option Format :=
  ((formats.filter (fun f => decide (f.vcodec ≠ some "none"))).insertionSort videoGE).head?

/-- The success dictionary built by `_try_audio_method` (lines 266–284).
Output defaults come from `best_format.get(field, default)`: `ext` defaults
to `'m4a'`, `abr` to `128`, `asr` to `44100`, codecs to `'none'`,
`protocol` and `format_note` to `''`; `filesize` has no default. -/
def mkSuccess (method vid : String) (info : Info) (best : Format) : AudioResult :=
  { status := "success"
    video_id := some vid
    title := some (info.title.getD "Unknown Title")
    duration := some (info.duration.getD 0)
    stream_url := some best.url
    type := some "audio"
    fmt := some
      { ext := best.ext.getD "m4a"
        abr := best.abr.getD 128
        asr := best.asr.getD 44100
        vcodec := best.vcodec.getD "none"
        acodec := best.acodec.getD "none"
        filesize := best.filesize
        protocol := best.protocol.getD ""
        format_note := best.format_note.getD "" }
    method_used := some method }

/-- `YouTubeDownloader._try_audio_method` (lines 193–288 of `src/main.py`)
for a given resolver outcome.  An exception yields
`{'status':'error','message': f'{method_name}: {e}'}`; a falsy info yields
`'No video info found'`; an empty suitable-format list yields
`f'No suitable formats in {method_name}'`; otherwise the best format is
selected and the success dictionary built. -/
def tryAudioMethod (method vid : String) (outcome : ResolverOutcome) : AudioResult :=
  match outcome with
  | .raise msg => { status := "error", message := some (method ++ ": " ++ msg) }
  | .noInfo => { status := "error", message := some "No video info found" }
  | .ok info =>
    match selectAudioFormat method info.formats with
    | none => { status := "error", message := some ("No suitable formats in " ++ method) }
    | some best => mkSuccess method vid info best

/-- Methods 2–4 of `YouTubeDownloader.get_audio_stream` (lines 172–191 of
`src/main.py`): mixed-format, then DASH, then generic fallback, stopping at
the first success; the last result is returned as is.  `trace` accumulates
the methods already attempted (instrumentation for the attempt order). -/
def getAudioStreamRest (vid : String) (resolver : String → ResolverOutcome)
    (trace : List String) : AudioResult × List String :=
  if (tryAudioMethod "mixed_format_method" vid (resolver "mixed_format_method")).status = "success" then
    (tryAudioMethod "mixed_format_method" vid (resolver "mixed_format_method"),
     trace ++ ["mixed_format_method"])
  else if (tryAudioMethod "dash_method" vid (resolver "dash_method")).status = "success" then
    (tryAudioMethod "dash_method" vid (resolver "dash_method"),
     trace ++ ["mixed_format_method", "dash_method"])
  else
    (tryAudioMethod "generic_method" vid (resolver "generic_method"),
     trace ++ ["mixed_format_method", "dash_method", "generic_method"])

/-- `YouTubeDownloader.get_audio_stream` (lines 158–191 of `src/main.py`),
instrumented with the list of methods actually attempted against the
external resolver (in attempt order).  Method 1 (`cookies_method`) runs only
when `use_cookies` is passed and a cookies file is configured and present
(`cookiesAvailable` models `config.COOKIES_FILE and os.path.exists(...)`);
the resolver oracle maps each method name to that method's outcome. -/
def getAudioStream (cookiesAvailable useCookies : Bool) (vid : String)
    (resolver : String → ResolverOutcome) : AudioResult × List String :=
  if useCookies && cookiesAvailable then
    if (tryAudioMethod "cookies_method" vid (resolver "cookies_method")).status = "success" then
      (tryAudioMethod "cookies_method" vid (resolver "cookies_method"), ["cookies_method"])
    else getAudioStreamRest vid resolver ["cookies_method"]
  else getAudioStreamRest vid resolver []

/-- The `'format'` option string chosen by `YouTubeDownloader.get_ydl_options`
(lines 128–154 of `src/main.py`): for audio, line 144 overwrites the earlier
assignment; for video, the quality tier maps to a height-ceiling hint; any
other `video_type` leaves the default options without a `'format'` key. -/
def getYdlFormat (videoType quality : String) : Option String :=
  if videoType = "audio" then some "best[acodec!=none]"
  else if videoType = "video" then
    if quality = "low" then some "best[height<=360]"
    else if quality = "medium" then some "best[height<=480]"
    else if quality = "high" then some "best[height<=720]"
    else some "best[height<=1080]/best"
  else none

/-- First element of a list attaining the maximal key under `lexLE`
(earlier elements win ties): the canonical description of what "stable
descending sort, then take index 0" returns. -/
def firstMaxBy (key : Format → Nat × Nat × Nat) : List Format → Option Format
  | [] => none
  | a :: l =>
    match firstMaxBy key l with
    | none => some a
    | some b => if lexLE (key b) (key a) then some a else some b

/-- Modelled from the spec: the sliding-window admission controller.  Its
implementation (`utils.rate_limiter`, imported on line 22 of `src/main.py`
and called by `rate_limit_middleware`) is not among the sources, so §4.1 of
the spec is followed: on each check, drop all timestamps older than
`now - window_duration`; if the remaining count is at least `max_requests`,
reject without recording; else append `now` and accept.  One window is kept
per client key and windows of distinct clients are independent, so one
client's window is modelled.  Returns (admitted?, updated window). -/
def checkLimit (windowDuration maxRequests now : Nat) (timestamps : List Nat) :
    Bool × List Nat :=
  if maxRequests ≤ (timestamps.filter (fun ts => decide (now ≤ ts + windowDuration))).length then
    (false, timestamps.filter (fun ts => decide (now ≤ ts + windowDuration)))
  else
    (true, timestamps.filter (fun ts => decide (now ≤ ts + windowDuration)) ++ [now])

/-- A sequence of admission checks for one client at the given instants,
threading the window state; returns the check results in order and the
final window. -/
def runChecks (w m : Nat) (times : List Nat) (ts : List Nat) : List Bool × List Nat :=
  match times with
  | [] => ([], ts)
  | t :: rest =>
    ((checkLimit w m t ts).1 :: (runChecks w m rest (checkLimit w m t ts).2).1,
     (runChecks w m rest (checkLimit w m t ts).2).2)

/-- Modelled from the spec: one entry of the result cache (`utils.cache` is
not among the sources); §4.2 and §3 `CacheEntry`.  Entries are kept oldest
first. -/
structure CacheEntry where
  key : String
  value : AudioResult
  createdAt : Nat
deriving Repr, DecidableEq

/-- Modelled from the spec: the insert/overwrite step of `cache.set`
(§4.2): the key's previous entry is replaced and the new entry appended as
newest. -/
def cacheInsertRaw (c : List CacheEntry) (k : String) (v : AudioResult)
    (now : Nat) : List CacheEntry :=
  (c.filter (fun e => decide (e.key ≠ k))) ++ [{ key := k, value := v, createdAt := now }]

/-- Modelled from the spec: `cache.set` (§4.2): insert/overwrite the key,
and beyond the configured maximum entry count evict the earliest-inserted
entries until the bound holds. -/
def cacheSet (maxEntries : Nat) (c : List CacheEntry) (k : String) (v : AudioResult)
    (now : Nat) : List CacheEntry :=
  if maxEntries < (cacheInsertRaw c k v now).length then
    (cacheInsertRaw c k v now).drop ((cacheInsertRaw c k v now).length - maxEntries)
  else cacheInsertRaw c k v now

/-- Modelled from the spec: `cache.get` (§4.2): miss on absence, miss with
lazy eviction on expiry (`now - created_at > ttl`), otherwise a hit.
Returns (hit, updated cache). -/
def cacheGet (ttl now : Nat) (c : List CacheEntry) (k : String) :
    Option AudioResult × List CacheEntry :=
  match c.find? (fun e => decide (e.key = k)) with
  | none => (none, c)
  | some e =>
    if ttl < now - e.createdAt then (none, c.filter (fun e2 => decide (e2.key ≠ k)))
    else (some e.value, c)

/-- The cache-population guard of `get_stream_info` (lines 360–362 of
`src/main.py`): `if result['status'] == 'success': await cache.set(cache_key, result)`. -/
def cacheAfterGetStreamInfo (maxEntries : Nat) (c : List CacheEntry) (k : String)
    (result : AudioResult) (now : Nat) : List CacheEntry :=
  if result.status = "success" then cacheSet maxEntries c k result now else c

/-- The cache-population guard of `stream_audio` (lines 516–519 of
`src/main.py`): `if result['status'] == 'success': await cache.set(cache_key, result)`. -/
def cacheAfterStreamAudio (maxEntries : Nat) (c : List CacheEntry) (k : String)
    (result : AudioResult) (now : Nat) : List CacheEntry :=
  if result.status = "success" then cacheSet maxEntries c k result now else c

/-- The cache-hit acceptance of `stream_audio` (lines 469–474 of
`src/main.py`): a cached value is used only when present and its status is
`'success'`. -/
def streamAudioCacheHit (cached : Option AudioResult) : Option AudioResult :=
  match cached with
  | some r => if r.status = "success" then some r else none
  | none => none

/-- Cache states reachable from the empty cache through the operations the
server performs on the result cache: the guarded writes of
`get_stream_info` and `stream_audio`, lookups (with lazy expiry eviction),
and `clear_cache` (line 878 of `src/main.py`). -/
inductive CacheReachable (maxEntries ttl : Nat) : List CacheEntry → Prop where
  | empty : CacheReachable maxEntries ttl []
  | writeGetStreamInfo {c : List CacheEntry} (k : String) (r : AudioResult) (now : Nat) :
      CacheReachable maxEntries ttl c →
      CacheReachable maxEntries ttl (cacheAfterGetStreamInfo maxEntries c k r now)
  | writeStreamAudio {c : List CacheEntry} (k : String) (r : AudioResult) (now : Nat) :
      CacheReachable maxEntries ttl c →
      CacheReachable maxEntries ttl (cacheAfterStreamAudio maxEntries c k r now)
  | lookup {c : List CacheEntry} (k : String) (now : Nat) :
      CacheReachable maxEntries ttl c →
      CacheReachable maxEntries ttl (cacheGet ttl now c k).2
  | clearAll {c : List CacheEntry} :
      CacheReachable maxEntries ttl c → CacheReachable maxEntries ttl []

theorem lexLE_refl (a : Nat × Nat × Nat) : lexLE a a := by
  unfold lexLE; omega

theorem lexLE_trans {a b c : Nat × Nat × Nat} (h1 : lexLE a b) (h2 : lexLE b c) :
    lexLE a c := by
  unfold lexLE at h1 h2 ⊢; omega

theorem lexLE_of_not_lexLE {a b : Nat × Nat × Nat} (h : ¬ lexLE a b) : lexLE b a := by
  unfold lexLE at h ⊢; omega

theorem firstMaxBy_eq_none_iff (key : Format → Nat × Nat × Nat) (l : List Format) :
    firstMaxBy key l = none ↔ l = [] := by
  cases l with
  | nil => simp [firstMaxBy]
  | cons a l =>
    simp only [firstMaxBy]
    cases firstMaxBy key l <;> simp only [List.cons_ne_nil, iff_false] <;>
      first
        | exact fun h => by simp at h
        | (split <;> simp)

/-- The element picked by `firstMaxBy` is a member of the list and its key
dominates every member's key. -/
theorem firstMaxBy_mem_max (key : Format → Nat × Nat × Nat) :
    ∀ (l : List Format) (b : Format), firstMaxBy key l = some b →
      b ∈ l ∧ ∀ x ∈ l, lexLE (key x) (key b)
  | [], b, h => by simp [firstMaxBy] at h
  | a :: l, b, h => by
    cases hl : firstMaxBy key l with
    | none =>
      simp only [firstMaxBy, hl] at h
      cases h
      have hnil : l = [] := (firstMaxBy_eq_none_iff key l).mp hl
      subst hnil
      exact ⟨List.mem_singleton_self _, by
        intro x hx
        rcases List.mem_singleton.mp hx with rfl
        exact lexLE_refl _⟩
    | some c =>
      simp only [firstMaxBy, hl] at h
      obtain ⟨hc_mem, hc_max⟩ := firstMaxBy_mem_max key l c hl
      by_cases hba : lexLE (key c) (key a)
      · rw [if_pos hba] at h
        cases h
        refine ⟨List.mem_cons_self _ _, ?_⟩
        intro x hx
        rcases List.mem_cons.mp hx with rfl | hx
        · exact lexLE_refl _
        · exact lexLE_trans (hc_max x hx) hba
      · rw [if_neg hba] at h
        cases h
        refine ⟨List.mem_cons_of_mem _ hc_mem, ?_⟩
        intro x hx
        rcases List.mem_cons.mp hx with rfl | hx
        · exact lexLE_of_not_lexLE hba
        · exact hc_max x hx

/-- The head of the stable descending insertion sort is exactly the first
element attaining the maximal key: stable sorting then taking index 0 is
`firstMaxBy`. -/
theorem head_insertionSort_key (key : Format → Nat × Nat × Nat)
    (r : Format → Format → Prop) [DecidableRel r]
    (hr : ∀ a b, r a b ↔ lexLE (key b) (key a)) :
    ∀ l : List Format, (l.insertionSort r).head? = firstMaxBy key l
  | [] => rfl
  | a :: l => by
    have ih := head_insertionSort_key key r hr l
    simp only [List.insertionSort, firstMaxBy]
    cases hs : (l.insertionSort r) with
    | nil =>
      rw [hs] at ih
      rw [← ih]
      simp [List.orderedInsert]
    | cons b rest =>
      rw [hs] at ih
      simp only [List.head?] at ih
      rw [← ih]
      simp only [List.orderedInsert]
      by_cases hab : r a b
      · rw [if_pos hab, if_pos ((hr a b).mp hab)]
        rfl
      · rw [if_neg hab, if_neg (fun hk => hab ((hr a b).mpr hk))]
        rfl

/-- The audio Format Selector equals `firstMaxBy audioKey` over the
eligible candidates. -/
theorem selectAudioFormat_eq (m : String) (fs : List Format) :
    selectAudioFormat m fs = firstMaxBy audioKey (fs.filter (suitableFilter m)) := by
  unfold selectAudioFormat
  exact head_insertionSort_key audioKey audioGE (fun _ _ => Iff.rfl) _

/-- The video Format Selector equals `firstMaxBy videoKey` over the
candidates whose video codec is present. -/
theorem selectVideoFormat_eq (fs : List Format) :
    selectVideoFormat fs =
      firstMaxBy videoKey (fs.filter (fun f => decide (f.vcodec ≠ some "none"))) := by
  unfold selectVideoFormat
  exact head_insertionSort_key videoKey videoGE (fun _ _ => Iff.rfl) _

theorem tryAudioMethod_eq_mkSuccess (m vid : String) (info : Info) (best : Format)
    (h : selectAudioFormat m info.formats = some best) :
    tryAudioMethod m vid (.ok info) = mkSuccess m vid info best := by
  simp [tryAudioMethod, h]

/-- A result of `_try_audio_method` whose status is `'success'` comes from a
metadata document and a surviving selection, and is the success dictionary
for that selection. -/
theorem tryAudioMethod_success_spec (m vid : String) (o : ResolverOutcome)
    (h : (tryAudioMethod m vid o).status = "success") :
    ∃ info best, o = .ok info ∧ selectAudioFormat m info.formats = some best ∧
      tryAudioMethod m vid o = mkSuccess m vid info best := by
  cases o with
  | raise msg => simp [tryAudioMethod] at h
  | noInfo => simp [tryAudioMethod] at h
  | ok info =>
    cases hsel : selectAudioFormat m info.formats with
    | none => simp [tryAudioMethod, hsel] at h
    | some best => exact ⟨info, best, rfl, hsel, by simp [tryAudioMethod, hsel]⟩

theorem tryAudioMethod_method_used (m vid : String) (o : ResolverOutcome)
    (h : (tryAudioMethod m vid o).status = "success") :
    (tryAudioMethod m vid o).method_used = some m := by
  obtain ⟨info, best, rfl, hsel, heq⟩ := tryAudioMethod_success_spec m vid o h
  rw [heq]; rfl

theorem tryAudioMethod_status_cases (m vid : String) (o : ResolverOutcome) :
    (tryAudioMethod m vid o).status = "success" ∨ (tryAudioMethod m vid o).status = "error" := by
  cases o with
  | raise msg => right; rfl
  | noInfo => right; rfl
  | ok info =>
    cases hsel : selectAudioFormat m info.formats with
    | none => right; simp [tryAudioMethod, hsel]
    | some best => left; simp [tryAudioMethod, hsel, mkSuccess]

/-- C1: the fallback resolver attempts the audio extraction methods in the
declared order and stops at the first success: if the cookie-authenticated
method fails (or is skipped) and the mixed-format method succeeds, the
mixed-format result is returned, `method_used` names the mixed-format
method (code identifier `"mixed_format_method"`), and neither the DASH
(segmented-stream-audio) method nor the generic fallback is ever
attempted. -/
theorem spec_c1_fallback_order_short_circuit
    (cookiesAvailable useCookies : Bool) (vid : String)
    (resolver : String → ResolverOutcome)
    (h1 : (tryAudioMethod "cookies_method" vid (resolver "cookies_method")).status ≠ "success")
    (h2 : (tryAudioMethod "mixed_format_method" vid (resolver "mixed_format_method")).status = "success") :
    getAudioStream cookiesAvailable useCookies vid resolver =
      (tryAudioMethod "mixed_format_method" vid (resolver "mixed_format_method"),
       (if useCookies && cookiesAvailable then ["cookies_method"] else []) ++ ["mixed_format_method"]) ∧
    (getAudioStream cookiesAvailable useCookies vid resolver).1.method_used =
      some "mixed_format_method" ∧
    "dash_method" ∉ (getAudioStream cookiesAvailable useCookies vid resolver).2 ∧
    "generic_method" ∉ (getAudioStream cookiesAvailable useCookies vid resolver).2 := by
  have hmain : getAudioStream cookiesAvailable useCookies vid resolver =
      (tryAudioMethod "mixed_format_method" vid (resolver "mixed_format_method"),
       (if useCookies && cookiesAvailable then ["cookies_method"] else []) ++ ["mixed_format_method"]) := by
    by_cases hc : (useCookies && cookiesAvailable) = true <;>
      simp [getAudioStream, getAudioStreamRest, hc, h1, h2]
  refine ⟨hmain, ?_, ?_, ?_⟩
  · rw [hmain]
    exact tryAudioMethod_method_used _ _ _ h2
  · rw [hmain]
    by_cases hc : (useCookies && cookiesAvailable) = true <;> simp [hc]
  · rw [hmain]
    by_cases hc : (useCookies && cookiesAvailable) = true <;> simp [hc]

/-- A resolver oracle on which only the mixed-format method succeeds. -/
def resolverMixedOnly : String → ResolverOutcome := fun m =>
  if m = "mixed_format_method" then
    .ok { formats := [{ url := "u", acodec := some "aac" }] }
  else .raise "boom"

theorem spec_c1_witness :
    getAudioStream true true "vid1" resolverMixedOnly =
      (tryAudioMethod "mixed_format_method" "vid1" (resolverMixedOnly "mixed_format_method"),
       ["cookies_method", "mixed_format_method"]) ∧
    (getAudioStream true true "vid1" resolverMixedOnly).1.method_used =
      some "mixed_format_method" ∧
    "dash_method" ∉ (getAudioStream true true "vid1" resolverMixedOnly).2 ∧
    "generic_method" ∉ (getAudioStream true true "vid1" resolverMixedOnly).2 := by
  have h := spec_c1_fallback_order_short_circuit true true "vid1" resolverMixedOnly
    (by decide) (by decide)
  simpa using h

/-- C6: when method 1 is attempted and all four methods fail, the resolver
returns the fourth (generic-fallback) method's result: status is the
failure status and the diagnostic message is exactly the last method's
failure message. -/
theorem spec_c6_all_fail_reports_last_message (vid : String)
    (resolver : String → ResolverOutcome)
    (h1 : (tryAudioMethod "cookies_method" vid (resolver "cookies_method")).status ≠ "success")
    (h2 : (tryAudioMethod "mixed_format_method" vid (resolver "mixed_format_method")).status ≠ "success")
    (h3 : (tryAudioMethod "dash_method" vid (resolver "dash_method")).status ≠ "success")
    (h4 : (tryAudioMethod "generic_method" vid (resolver "generic_method")).status ≠ "success") :
    (getAudioStream true true vid resolver).1 =
      tryAudioMethod "generic_method" vid (resolver "generic_method") ∧
    (getAudioStream true true vid resolver).1.status = "error" ∧
    (getAudioStream true true vid resolver).1.message =
      (tryAudioMethod "generic_method" vid (resolver "generic_method")).message := by
  have hmain : (getAudioStream true true vid resolver).1 =
      tryAudioMethod "generic_method" vid (resolver "generic_method") := by
    simp [getAudioStream, getAudioStreamRest, h1, h2, h3]
  have herr : (tryAudioMethod "generic_method" vid (resolver "generic_method")).status = "error" := by
    rcases tryAudioMethod_status_cases "generic_method" vid (resolver "generic_method") with h | h
    · exact absurd h h4
    · exact h
  exact ⟨hmain, by rw [hmain]; exact herr, by rw [hmain]⟩

theorem spec_c6_witness :
    (getAudioStream true true "vid6" (fun _ => .raise "net down")).1 =
      tryAudioMethod "generic_method" "vid6" ((fun _ => ResolverOutcome.raise "net down") "generic_method") ∧
    (getAudioStream true true "vid6" (fun _ => .raise "net down")).1.status = "error" ∧
    (getAudioStream true true "vid6" (fun _ => .raise "net down")).1.message =
      (tryAudioMethod "generic_method" "vid6" ((fun _ => ResolverOutcome.raise "net down") "generic_method")).message :=
  spec_c6_all_fail_reports_last_message "vid6" (fun _ => .raise "net down")
    (by decide) (by decide) (by decide) (by decide)

/-- C10 (implicit): when no cookies file is available or the caller passes
`use_cookies=False`, the cookie-authenticated method is skipped entirely —
it never appears among the attempted methods — and the first method
actually invoked against the external resolver is the mixed-format
method; the run is exactly the methods-2-to-4 chain. -/
theorem spec_c10_cookie_method_skipped
    (cookiesAvailable useCookies : Bool) (vid : String)
    (resolver : String → ResolverOutcome)
    (h : (useCookies && cookiesAvailable) = false) :
    "cookies_method" ∉ (getAudioStream cookiesAvailable useCookies vid resolver).2 ∧
    (getAudioStream cookiesAvailable useCookies vid resolver).2.head? =
      some "mixed_format_method" ∧
    getAudioStream cookiesAvailable useCookies vid resolver =
      getAudioStreamRest vid resolver [] := by
  have hfalse : ¬ ((useCookies && cookiesAvailable) = true) := by simp [h]
  have hmain : getAudioStream cookiesAvailable useCookies vid resolver =
      getAudioStreamRest vid resolver [] := by
    simp [getAudioStream, hfalse]
  refine ⟨?_, ?_, hmain⟩ <;> rw [hmain] <;> unfold getAudioStreamRest <;>
    by_cases hm2 : (tryAudioMethod "mixed_format_method" vid (resolver "mixed_format_method")).status = "success" <;>
    by_cases hm3 : (tryAudioMethod "dash_method" vid (resolver "dash_method")).status = "success" <;>
    simp [hm2, hm3]

theorem spec_c10_witness :
    "cookies_method" ∉ (getAudioStream false true "vid10" (fun _ => .raise "x")).2 ∧
    (getAudioStream false true "vid10" (fun _ => .raise "x")).2.head? =
      some "mixed_format_method" ∧
    getAudioStream false true "vid10" (fun _ => .raise "x") =
      getAudioStreamRest "vid10" (fun _ => .raise "x") [] :=
  spec_c10_cookie_method_skipped false true "vid10" (fun _ => .raise "x") (by decide)

/-- C2 counterexample: for the cookie-authenticated method (not the
mixed-format method), a candidate with a present audio codec AND a present
video codec (`avc1`, not `"none"`) is eligible and is in fact selected —
the claim's requirement `video_codec == "none"` for non-mixed methods does
not hold on the code: the disjunct `method_name != "mixed_format_method"`
in the `elif` makes the video-codec test vacuous. -/
theorem spec_c2_counterexample :
    suitableFilter "cookies_method"
      { url := "u2c", acodec := some "mp4a.40.2", vcodec := some "avc1" } = true ∧
    ({ url := "u2c", acodec := some "mp4a.40.2", vcodec := some "avc1" } : Format).vcodec ≠
      some "none" ∧
    (tryAudioMethod "cookies_method" "v2"
      (.ok { formats := [{ url := "u2c", acodec := some "mp4a.40.2", vcodec := some "avc1" }] })).status =
      "success" := by
  decide

/-- C2 amended: for every AUDIO extraction method — mixed-format or not — a
candidate format is eligible exactly when its audio codec is not `"none"`;
the video codec is never constrained (the non-mixed branch's
`video_codec == 'none'` test is short-circuited away by
`method_name != "mixed_format_method"`). -/
theorem spec_c2_amended_eligibility (m : String) (f : Format) :
    suitableFilter m f = true ↔ f.acodec ≠ some "none" := by
  by_cases hm : m = "mixed_format_method" <;> by_cases ha : f.acodec = some "none" <;>
    simp [suitableFilter, hm, ha]

/-- The external-resolver behaviour of end-to-end scenario A: empty
candidate list for the cookie method, two audio candidates
(abr 128 / asr 44100 and abr 192 / asr 48000) for the mixed-format
method. -/
def c4resolver : String → ResolverOutcome := fun m =>
  if m = "cookies_method" then .ok { formats := [] }
  else if m = "mixed_format_method" then
    .ok { formats :=
      [{ url := "u128", abr := some 128, asr := some 44100, acodec := some "mp4a.40.2" },
       { url := "u192", abr := some 192, asr := some 48000, acodec := some "mp4a.40.2" }] }
  else .raise "unreachable"

/-- C4: whenever the eligible candidate set of an audio method is non-empty
the method succeeds, and the selected candidate is eligible and maximal
under the descending lexicographic key (bitrate-or-total-bitrate,
sample-rate, filesize) with missing fields ranked as zero; in scenario A
(method 1 yields no candidates, method 2 yields the abr-128 and abr-192
candidates) the abr-192 candidate is selected, the result is a success, and
the mixed-format method is reported. -/
theorem spec_c4_ranking_maximal :
    (∀ (m vid : String) (info : Info),
      info.formats.filter (suitableFilter m) ≠ [] →
      ∃ best, selectAudioFormat m info.formats = some best ∧
        tryAudioMethod m vid (.ok info) = mkSuccess m vid info best ∧
        (tryAudioMethod m vid (.ok info)).status = "success" ∧
        best ∈ info.formats.filter (suitableFilter m) ∧
        ∀ x ∈ info.formats.filter (suitableFilter m), lexLE (audioKey x) (audioKey best)) ∧
    (getAudioStream true true "abc123" c4resolver).1.status = "success" ∧
    (getAudioStream true true "abc123" c4resolver).1.method_used = some "mixed_format_method" ∧
    (getAudioStream true true "abc123" c4resolver).1.stream_url = some "u192" ∧
    ((getAudioStream true true "abc123" c4resolver).1.fmt.map (·.abr)) = some 192 := by
  constructor
  · intro m vid info hne
    cases hfm : firstMaxBy audioKey (info.formats.filter (suitableFilter m)) with
    | none => exact absurd ((firstMaxBy_eq_none_iff _ _).mp hfm) hne
    | some best =>
      obtain ⟨hmem, hmax⟩ := firstMaxBy_mem_max _ _ _ hfm
      have hsel : selectAudioFormat m info.formats = some best := by
        rw [selectAudioFormat_eq, hfm]
      refine ⟨best, hsel, tryAudioMethod_eq_mkSuccess _ _ _ _ hsel, ?_, hmem, hmax⟩
      rw [tryAudioMethod_eq_mkSuccess _ _ _ _ hsel]; rfl
  · refine ⟨?_, ?_, ?_, ?_⟩ <;> decide

theorem spec_c4_witness :
    ∃ best, selectAudioFormat "cookies_method" ({ formats := [{ url := "w4", acodec := some "aac" }] } : Info).formats = some best ∧
      tryAudioMethod "cookies_method" "vid4" (.ok { formats := [{ url := "w4", acodec := some "aac" }] }) =
        mkSuccess "cookies_method" "vid4" { formats := [{ url := "w4", acodec := some "aac" }] } best ∧
      (tryAudioMethod "cookies_method" "vid4" (.ok { formats := [{ url := "w4", acodec := some "aac" }] })).status = "success" ∧
      best ∈ ({ formats := [{ url := "w4", acodec := some "aac" }] } : Info).formats.filter (suitableFilter "cookies_method") ∧
      ∀ x ∈ ({ formats := [{ url := "w4", acodec := some "aac" }] } : Info).formats.filter (suitableFilter "cookies_method"),
        lexLE (audioKey x) (audioKey best) :=
  spec_c4_ranking_maximal.1 "cookies_method" "vid4"
    { formats := [{ url := "w4", acodec := some "aac" }] } (by decide)

/-- C5 counterexample: a selected candidate with absent `abr` and `asr` is
reported with fabricated values `abr = 128` and `asr = 44100` in the
result's format dictionary (`best_format.get('abr', 128)`,
`best_format.get('asr', 44100)`), contradicting the claim that absent
fields are never replaced by fabricated values in the output. -/
theorem spec_c5_counterexample :
    ({ url := "u5", tbr := some 64, acodec := some "mp4a.40.2" } : Format).abr = none ∧
    ({ url := "u5", tbr := some 64, acodec := some "mp4a.40.2" } : Format).asr = none ∧
    (tryAudioMethod "cookies_method" "v5"
      (.ok { formats := [{ url := "u5", tbr := some 64, acodec := some "mp4a.40.2" }] })).status =
      "success" ∧
    ((tryAudioMethod "cookies_method" "v5"
      (.ok { formats := [{ url := "u5", tbr := some 64, acodec := some "mp4a.40.2" }] })).fmt.map
        (·.abr)) = some 128 ∧
    ((tryAudioMethod "cookies_method" "v5"
      (.ok { formats := [{ url := "u5", tbr := some 64, acodec := some "mp4a.40.2" }] })).fmt.map
        (·.asr)) = some 44100 := by
  decide

/-- C5 amended: fields present on the chosen candidate are reported
verbatim (the ranking's zero substitution never reaches the output), and
`filesize` is reported exactly as on the candidate (absent stays absent);
but an absent bitrate is reported as the fixed default `128`, an absent
sample rate as `44100`, an absent `ext` as `'m4a'`, absent codecs as
`'none'`, and absent `protocol`/`format_note` as `''`. -/
theorem spec_c5_amended_output_fields (m vid : String) (info : Info) (best : Format)
    (h : selectAudioFormat m info.formats = some best) :
    ∃ out, (tryAudioMethod m vid (.ok info)).fmt = some out ∧
      (tryAudioMethod m vid (.ok info)).stream_url = some best.url ∧
      (∀ a, best.abr = some a → out.abr = a) ∧ (best.abr = none → out.abr = 128) ∧
      (∀ a, best.asr = some a → out.asr = a) ∧ (best.asr = none → out.asr = 44100) ∧
      out.filesize = best.filesize ∧
      (∀ s, best.ext = some s → out.ext = s) ∧
      (∀ s, best.vcodec = some s → out.vcodec = s) ∧
      (∀ s, best.acodec = some s → out.acodec = s) ∧
      (∀ s, best.protocol = some s → out.protocol = s) ∧
      (∀ s, best.format_note = some s → out.format_note = s) := by
  rw [tryAudioMethod_eq_mkSuccess m vid info best h]
  refine ⟨{ ext := best.ext.getD "m4a", abr := best.abr.getD 128,
            asr := best.asr.getD 44100, vcodec := best.vcodec.getD "none",
            acodec := best.acodec.getD "none", filesize := best.filesize,
            protocol := best.protocol.getD "", format_note := best.format_note.getD "" },
          rfl, rfl, ?_, ?_, ?_, ?_, rfl, ?_, ?_, ?_, ?_, ?_⟩
  all_goals first
    | (intro a ha; simp [ha])
    | (intro ha; simp [ha])

theorem spec_c5_witness :
    ∃ out, (tryAudioMethod "cookies_method" "vid5"
        (.ok { formats := [{ url := "w5", abr := some 96, asr := some 22050,
                             acodec := some "aac", filesize := some 1000 }] })).fmt = some out ∧
      (tryAudioMethod "cookies_method" "vid5"
        (.ok { formats := [{ url := "w5", abr := some 96, asr := some 22050,
                             acodec := some "aac", filesize := some 1000 }] })).stream_url =
        some ({ url := "w5", abr := some 96, asr := some 22050,
                acodec := some "aac", filesize := some 1000 } : Format).url ∧
      (∀ a, ({ url := "w5", abr := some 96, asr := some 22050,
               acodec := some "aac", filesize := some 1000 } : Format).abr = some a → out.abr = a) ∧
      (({ url := "w5", abr := some 96, asr := some 22050,
          acodec := some "aac", filesize := some 1000 } : Format).abr = none → out.abr = 128) ∧
      (∀ a, ({ url := "w5", abr := some 96, asr := some 22050,
               acodec := some "aac", filesize := some 1000 } : Format).asr = some a → out.asr = a) ∧
      (({ url := "w5", abr := some 96, asr := some 22050,
          acodec := some "aac", filesize := some 1000 } : Format).asr = none → out.asr = 44100) ∧
      out.filesize = ({ url := "w5", abr := some 96, asr := some 22050,
                        acodec := some "aac", filesize := some 1000 } : Format).filesize ∧
      (∀ s, ({ url := "w5", abr := some 96, asr := some 22050,
               acodec := some "aac", filesize := some 1000 } : Format).ext = some s → out.ext = s) ∧
      (∀ s, ({ url := "w5", abr := some 96, asr := some 22050,
               acodec := some "aac", filesize := some 1000 } : Format).vcodec = some s → out.vcodec = s) ∧
      (∀ s, ({ url := "w5", abr := some 96, asr := some 22050,
               acodec := some "aac", filesize := some 1000 } : Format).acodec = some s → out.acodec = s) ∧
      (∀ s, ({ url := "w5", abr := some 96, asr := some 22050,
               acodec := some "aac", filesize := some 1000 } : Format).protocol = some s → out.protocol = s) ∧
      (∀ s, ({ url := "w5", abr := some 96, asr := some 22050,
               acodec := some "aac", filesize := some 1000 } : Format).format_note = some s → out.format_note = s) :=
  spec_c5_amended_output_fields "cookies_method" "vid5"
    { formats := [{ url := "w5", abr := some 96, asr := some 22050,
                    acodec := some "aac", filesize := some 1000 }] }
    { url := "w5", abr := some 96, asr := some 22050,
      acodec := some "aac", filesize := some 1000 } (by decide)

/-- C8: the Format Selector is pure and deterministic: repeated
applications to the same candidate list and target return the identical
selection, and the selection is functionally characterised — it equals the
first eligible candidate attaining the maximal ranking key (the stable
tie-breaking), for both the audio and the video selector. -/
theorem spec_c8_selector_pure_deterministic :
    (∀ (m : String) (fs : List Format), selectAudioFormat m fs = selectAudioFormat m fs) ∧
    (∀ (m : String) (fs : List Format),
      selectAudioFormat m fs = firstMaxBy audioKey (fs.filter (suitableFilter m))) ∧
    (∀ fs : List Format, selectVideoFormat fs = selectVideoFormat fs) ∧
    (∀ fs : List Format,
      selectVideoFormat fs =
        firstMaxBy videoKey (fs.filter (fun f => decide (f.vcodec ≠ some "none")))) :=
  ⟨fun _ _ => rfl, selectAudioFormat_eq, fun _ => rfl, selectVideoFormat_eq⟩

/-- C3 counterexample: with quality tier LOW (ceiling 360, as the option
hint `best[height<=360]` shows), the video selection of `get_stream_info`
still returns the 720-height candidate although a 360-height candidate is
available: the ceiling is applied only inside the hint string handed to the
external resolver, never by the code's own selection. -/
theorem spec_c3_counterexample :
    getYdlFormat "video" "low" = some "best[height<=360]" ∧
    selectVideoFormat
      [{ url := "u360", vcodec := some "avc1", height := some 360 },
       { url := "u720", vcodec := some "avc1", height := some 720 }] =
      some { url := "u720", vcodec := some "avc1", height := some 720 } ∧
    ({ url := "u720", vcodec := some "avc1", height := some 720 } : Format).height = some 720 ∧
    ¬ (720 ≤ 360) ∧
    ({ url := "u360", vcodec := some "avc1", height := some 360 } : Format).height = some 360 := by
  decide

/-- C3 amended: the quality tier maps to the ceilings LOW≤360, MEDIUM≤480,
HIGH≤720, BEST≤1080 only in the `'format'` hint string passed to the
external resolver; the code's own selection requires a present video codec
and picks the candidate maximal under (height, width, frame-rate),
regardless of the ceiling. -/
theorem spec_c3_amended_video_selection :
    (getYdlFormat "video" "low" = some "best[height<=360]" ∧
     getYdlFormat "video" "medium" = some "best[height<=480]" ∧
     getYdlFormat "video" "high" = some "best[height<=720]" ∧
     getYdlFormat "video" "best" = some "best[height<=1080]/best") ∧
    ∀ (fs : List Format) (b : Format), selectVideoFormat fs = some b →
      b.vcodec ≠ some "none" ∧ b ∈ fs ∧
      ∀ x ∈ fs, x.vcodec ≠ some "none" → lexLE (videoKey x) (videoKey b) := by
  refine ⟨by refine ⟨?_, ?_, ?_, ?_⟩ <;> decide, ?_⟩
  intro fs b h
  rw [selectVideoFormat_eq] at h
  obtain ⟨hmem, hmax⟩ := firstMaxBy_mem_max _ _ _ h
  rw [List.mem_filter] at hmem
  obtain ⟨hb_mem, hb_pred⟩ := hmem
  refine ⟨by simpa using hb_pred, hb_mem, ?_⟩
  intro x hx hxv
  exact hmax x (List.mem_filter.mpr ⟨hx, by simpa using hxv⟩)

theorem spec_c3_witness :
    ({ url := "w3", vcodec := some "vp9", height := some 480 } : Format).vcodec ≠ some "none" ∧
    ({ url := "w3", vcodec := some "vp9", height := some 480 } : Format) ∈
      [({ url := "w3", vcodec := some "vp9", height := some 480 } : Format)] ∧
    ∀ x ∈ [({ url := "w3", vcodec := some "vp9", height := some 480 } : Format)],
      x.vcodec ≠ some "none" →
      lexLE (videoKey x) (videoKey { url := "w3", vcodec := some "vp9", height := some 480 }) :=
  spec_c3_amended_video_selection.2
    [{ url := "w3", vcodec := some "vp9", height := some 480 }]
    { url := "w3", vcodec := some "vp9", height := some 480 } (by decide)

theorem mem_cacheInsertRaw {c : List CacheEntry} {k : String} {v : AudioResult}
    {now : Nat} {e : CacheEntry} (h : e ∈ cacheInsertRaw c k v now) :
    e ∈ c ∨ e = ⟨k, v, now⟩ := by
  unfold cacheInsertRaw at h
  rcases List.mem_append.mp h with h | h
  · exact Or.inl (List.mem_of_mem_filter h)
  · exact Or.inr (List.mem_singleton.mp h)

theorem mem_cacheSet {maxEntries : Nat} {c : List CacheEntry} {k : String}
    {v : AudioResult} {now : Nat} {e : CacheEntry} (h : e ∈ cacheSet maxEntries c k v now) :
    e ∈ c ∨ e = ⟨k, v, now⟩ := by
  unfold cacheSet at h
  split at h
  · exact mem_cacheInsertRaw (List.mem_of_mem_drop h)
  · exact mem_cacheInsertRaw h

theorem mem_cacheGet_snd {ttl now : Nat} {c : List CacheEntry} {k : String}
    {e : CacheEntry} (h : e ∈ (cacheGet ttl now c k).2) : e ∈ c := by
  unfold cacheGet at h
  cases hfind : c.find? (fun e2 => decide (e2.key = k)) with
  | none => simp only [hfind] at h; exact h
  | some e0 =>
    simp only [hfind] at h
    split at h
    · exact List.mem_of_mem_filter h
    · exact h

/-- A hit returned by the modelled `cache.get` is the value of a stored
entry. -/
theorem cacheGet_hit_mem (ttl now : Nat) (c : List CacheEntry) (k : String)
    (v : AudioResult) (h : (cacheGet ttl now c k).1 = some v) :
    ∃ e ∈ c, e.value = v := by
  unfold cacheGet at h
  cases hfind : c.find? (fun e2 => decide (e2.key = k)) with
  | none => simp [hfind] at h
  | some e0 =>
    simp only [hfind] at h
    by_cases hexp : ttl < now - e0.createdAt
    · rw [if_pos hexp] at h; simp at h
    · rw [if_neg hexp] at h
      simp only at h
      exact ⟨e0, List.mem_of_find?_eq_some hfind, Option.some.inj h⟩

/-- The cached-hit acceptance of `stream_audio` only ever exposes a
success-status result. -/
theorem streamAudioCacheHit_success (cached : Option AudioResult) (r : AudioResult)
    (h : streamAudioCacheHit cached = some r) : r.status = "success" := by
  cases cached with
  | none => simp [streamAudioCacheHit] at h
  | some r0 =>
    by_cases hs : r0.status = "success"
    · simp only [streamAudioCacheHit, if_pos hs] at h
      rw [← Option.some.inj h]
      exact hs
    · simp [streamAudioCacheHit, hs] at h

/-- C7: over every cache state reachable through the server's operations,
no FAILURE result is ever stored (a non-success result leaves the cache
untouched at both write sites), every stored value has SUCCESS status, a
lookup hit is therefore always a SUCCESS result, and the cached-hit path of
`stream_audio` never accepts a non-success result. -/
theorem spec_c7_failure_never_cached (maxEntries ttl : Nat) (c : List CacheEntry)
    (hreach : CacheReachable maxEntries ttl c) :
    (∀ e ∈ c, e.value.status = "success") ∧
    (∀ (k : String) (now : Nat) (v : AudioResult),
      (cacheGet ttl now c k).1 = some v → v.status = "success") ∧
    (∀ (k : String) (r : AudioResult) (now : Nat), r.status ≠ "success" →
      cacheAfterGetStreamInfo maxEntries c k r now = c ∧
      cacheAfterStreamAudio maxEntries c k r now = c) ∧
    (∀ (cached : Option AudioResult) (r : AudioResult),
      streamAudioCacheHit cached = some r → r.status = "success") := by
  have hinv : ∀ e ∈ c, e.value.status = "success" := by
    induction hreach with
    | empty => intro e he; exact absurd he (List.not_mem_nil e)
    | writeGetStreamInfo k r now hprev ih =>
      intro e he
      unfold cacheAfterGetStreamInfo at he
      by_cases hr : r.status = "success"
      · rw [if_pos hr] at he
        rcases mem_cacheSet he with h | h
        · exact ih e h
        · rw [h]; exact hr
      · rw [if_neg hr] at he; exact ih e he
    | writeStreamAudio k r now hprev ih =>
      intro e he
      unfold cacheAfterStreamAudio at he
      by_cases hr : r.status = "success"
      · rw [if_pos hr] at he
        rcases mem_cacheSet he with h | h
        · exact ih e h
        · rw [h]; exact hr
      · rw [if_neg hr] at he; exact ih e he
    | lookup k now hprev ih =>
      intro e he
      exact ih e (mem_cacheGet_snd he)
    | clearAll hprev ih =>
      intro e he; exact absurd he (List.not_mem_nil e)
  refine ⟨hinv, ?_, ?_, streamAudioCacheHit_success⟩
  · intro k now v h
    obtain ⟨e, hec, hev⟩ := cacheGet_hit_mem ttl now c k v h
    rw [← hev]
    exact hinv e hec
  · intro k r now hr
    constructor
    · unfold cacheAfterGetStreamInfo; rw [if_neg hr]
    · unfold cacheAfterStreamAudio; rw [if_neg hr]

theorem spec_c7_witness :
    ({ key := "abc123:audio:best", value := { status := "success" },
       createdAt := 5 } : CacheEntry).value.status = "success" :=
  (spec_c7_failure_never_cached 1000 7200
    (cacheAfterGetStreamInfo 1000 [] "abc123:audio:best" { status := "success" } 5)
    (CacheReachable.writeGetStreamInfo "abc123:audio:best" { status := "success" } 5
      CacheReachable.empty)).1
    { key := "abc123:audio:best", value := { status := "success" }, createdAt := 5 }
    (by decide)

/-- When the check instant is still inside the window that started at `t0`
and every recorded timestamp lies in that window, the pruning step drops
nothing. -/
theorem filter_window_eq_self (w t0 now : Nat) (ts : List Nat)
    (hts : ∀ s ∈ ts, t0 ≤ s ∧ s ≤ t0 + w) (hnow : now ≤ t0 + w) :
    ts.filter (fun s => decide (now ≤ s + w)) = ts := by
  apply List.filter_eq_self.mpr
  intro s hs
  have := hts s hs
  simp only [decide_eq_true_eq]
  omega

/-- Running admission checks at instants inside one window, starting from a
window holding timestamps inside the same window, admits every check while
the recorded count stays within the bound, recording each instant. -/
theorem runChecks_within (w m t0 : Nat) :
    ∀ (times acc : List Nat),
      (∀ s ∈ acc, t0 ≤ s ∧ s ≤ t0 + w) →
      (∀ t ∈ times, t0 ≤ t ∧ t ≤ t0 + w) →
      acc.length + times.length ≤ m →
      runChecks w m times acc = (List.replicate times.length true, acc ++ times)
  | [], acc, _, _, _ => by simp [runChecks]
  | t :: rest, acc, hacc, htimes, hlen => by
    have ht := htimes t (List.mem_cons_self t rest)
    have hfil : acc.filter (fun s => decide (t ≤ s + w)) = acc :=
      filter_window_eq_self w t0 t acc hacc ht.2
    have hlt : ¬ (m ≤ acc.length) := by
      simp only [List.length_cons] at hlen; omega
    have hcl : checkLimit w m t acc = (true, acc ++ [t]) := by
      unfold checkLimit
      rw [hfil, if_neg hlt]
    have hacc2 : ∀ s ∈ acc ++ [t], t0 ≤ s ∧ s ≤ t0 + w := by
      intro s hs
      rcases List.mem_append.mp hs with hs | hs
      · exact hacc s hs
      · rcases List.mem_singleton.mp hs with rfl
        exact ht
    have hlen2 : (acc ++ [t]).length + rest.length ≤ m := by
      simp only [List.length_append, List.length_cons, List.length_nil] at hlen ⊢
      omega
    have ih := runChecks_within w m t0 rest (acc ++ [t]) hacc2
      (fun s hs => htimes s (List.mem_cons_of_mem _ hs)) hlen2
    simp only [runChecks, hcl, ih, List.length_cons, List.replicate_succ,
      List.append_assoc, List.singleton_append]

/-- C9 (spec-modelled admission controller): from an empty window, exactly
`max_requests` checks at instants inside one window duration all succeed
and are recorded; a further check inside the same window is rejected and
records nothing (the window is left exactly as it was); and once the window
duration has elapsed past every recorded instant, a check succeeds
again. -/
theorem spec_c9_sliding_window_limit (w m t0 : Nat) (hm : 0 < m) (times : List Nat)
    (hlen : times.length = m) (hin : ∀ t ∈ times, t0 ≤ t ∧ t ≤ t0 + w) :
    (runChecks w m times []).1 = List.replicate m true ∧
    (runChecks w m times []).2 = times ∧
    (∀ now1, t0 ≤ now1 → now1 ≤ t0 + w → checkLimit w m now1 times = (false, times)) ∧
    (∀ now2, (∀ s ∈ times, s + w < now2) →
      (checkLimit w m now2 times).1 = true ∧ (checkLimit w m now2 times).2 = [now2]) := by
  have hrun := runChecks_within w m t0 times []
    (by intro s hs; exact absurd hs (List.not_mem_nil s))
    hin (by simp [hlen])
  refine ⟨by rw [hrun, hlen], by rw [hrun]; simp, ?_, ?_⟩
  · intro now1 _ h2
    have hfil : times.filter (fun s => decide (now1 ≤ s + w)) = times :=
      filter_window_eq_self w t0 now1 times hin h2
    unfold checkLimit
    rw [hfil, if_pos (by rw [hlen])]
  · intro now2 hall
    have hfil : times.filter (fun s => decide (now2 ≤ s + w)) = [] := by
      apply List.filter_eq_nil_iff.mpr
      intro s hs
      have := hall s hs
      simp only [decide_eq_true_eq]
      omega
    unfold checkLimit
    rw [hfil, if_neg (by simp; omega)]
    exact ⟨rfl, by simp⟩

theorem spec_c9_witness :
    (runChecks 5 2 [10, 13] []).1 = List.replicate 2 true ∧
    (runChecks 5 2 [10, 13] []).2 = [10, 13] ∧
    (∀ now1, 10 ≤ now1 → now1 ≤ 10 + 5 → checkLimit 5 2 now1 [10, 13] = (false, [10, 13])) ∧
    (∀ now2, (∀ s ∈ [10, 13], s + 5 < now2) →
      (checkLimit 5 2 now2 [10, 13]).1 = true ∧ (checkLimit 5 2 now2 [10, 13]).2 = [now2]) :=
  spec_c9_sliding_window_limit 5 2 10 (by decide) [10, 13] (by decide) (by decide)
